import Mathlib

/-!
Shallow embedding of the core of `ytfd.go` (repository moledoc/ytf): the
in-memory subscription store (`localDb`), its `add`/`get` operations and the
merge algorithm, the notification loop (`notify`), the response encoder
(`send`), the listener registry (`listenersChan.add` / `listenersChan.close`)
and the already-subscribed short-circuit of the `add` endpoint (`handleAdd`).

External effects are made explicit: the notifier (`dunstify` invocation) is a
parameter `notifyOk : Video → Bool` giving each invocation's outcome, the
global `*flagNotify` boolean is threaded as explicit state, and the sequence of
notifier invocations performed by a call is returned as a list.  The Go map
`ldb.c` is modelled as an association list with in-place update, matching Go
map assignment semantics.
-/

namespace Ytfd

/-- Embeds Go `type video struct { Title, VideoId, Description string }`. -/
structure Video where
  title : String
  videoId : String
  description : String
deriving DecidableEq, Repr

/-- Embeds Go `type channel struct { Name, URL string; Videos []*video }`. -/
structure Channel where
  name : String
  url : String
  videos : List Video
deriving DecidableEq, Repr

/-- The map `ldb.c : map[string]*channel`, as an association list. -/
abbrev Store := List (String × Channel)

/-- Go constant `maxFeedSize = 7`. -/
def maxFeedSize : Nat := 7

/-- Go constant `listenersSize = 8`. -/
def listenersSize : Nat := 8

/-- Go map read `ldb.c[c]` (with the `ok` bit as `Option`). -/
def lookup : Store → String → Option Channel
  | [], _ => none
  | (k, v) :: rest, key => if k = key then some v else lookup rest key

/-- Go map write `ldb.c[c] = ch`: replaces the binding if the key is present,
otherwise adds it.  (Mutating the `*channel` a map value points to, as the
merge branch of `add` does, is the same as rebinding the key to the updated
record.) -/
def insert : Store → String → Channel → Store
  | [], key, c => [(key, c)]
  | (k, v) :: rest, key, c =>
    if k = key then (key, c) :: rest else (k, v) :: insert rest key c

/-- Embeds `normalizeName`: `strings.ToLower` then
`strings.ReplaceAll(c, " ", "")`, i.e. lower-case every character and delete
every space character U+0020 (only spaces, no other whitespace). -/
def normalizeName (c : String) : String :=
  ⟨(c.data.map Char.toLower).filter (fun ch => ch ≠ ' ')⟩

/-- The scan in the merge branch of `(*localDb).add`:
`for j, vid := range ch.Videos { if vid.VideoId == latest.VideoId { i = j; ...; break } }` —
the index of the first incoming video whose id equals `latestId`, if any. -/
def firstMatchIdx (latestId : String) : List Video → Option Nat
  | [] => none
  | v :: vs =>
    if v.videoId = latestId then some 0
    else (firstMatchIdx latestId vs).map (fun n => n + 1)

/-- The notification loop `for k := 0; k < i && err == nil; k++ { err = notify(c, ch.Videos[k]) }`
run over a list of videos: returns the videos actually passed to `notify`, in
invocation order (the loop stops right after the first failing invocation, and
that failing invocation is included), together with `true` iff no invocation
failed.  A failing `notify` sets `*flagNotify = false`, so the boolean is also
the value of the notify flag after the loop when it started out `true`. -/
def notifyRun (ok : Video → Bool) : List Video → List Video × Bool
  | [] => ([], true)
  | v :: vs =>
    if ok v then
      let r := notifyRun ok vs
      (v :: r.1, r.2)
    else ([v], false)

/-- The notifications performed by the merge branch of `add`: they happen only
inside the `if vid.VideoId == latest.VideoId` arm (so only when a match was
found), and only when `*flagNotify && i > 0`.  Returns (videos notified, notify
flag afterwards). -/
def mergeNotifications (ok : Video → Bool) (flag : Bool) (idx? : Option Nat)
    (incoming : List Video) : List Video × Bool :=
  match idx? with
  | some j => if flag ∧ 0 < j then notifyRun ok (incoming.take j) else ([], flag)
  | none => ([], flag)

/-- Result of one `(*localDb).add` call: the store afterwards, the value of the
global `*flagNotify` afterwards, the notifier invocations performed (in order),
and the returned error if any. -/
structure AddResult where
  store : Store
  flag : Bool
  notified : List Video
  err : Option String
deriving DecidableEq, Repr

/-- Embeds `(*localDb).add`.  `notifyOk v` is the outcome `dunstify` would
report for video `v`; `flag` is the current value of `*flagNotify`.

Go source, line by line:
* `if len(ch.Videos) == 0 { return fmt.Errorf("channel with no videos") }`;
* `c = normalizeName(c)`;
* `ldbCh, ok := ldb.c[c]`; `if ok && len(ldbCh.Videos) > 0` — merge branch:
  `latest := ldbCh.Videos[0]`, scan for the first matching id (`i` stays `0`
  when no match is found), notify for `k < i` while no error, then
  `ldbCh.Videos = append(ch.Videos[:i], ldbCh.Videos[:min(maxFeedSize, len(ldbCh.Videos))]...)`,
  whose value is `ch.Videos[0:i] ++ ldbCh.Videos[0:min(7, len)]`;
* otherwise `ch.Videos = ch.Videos[:min(maxFeedSize, len(ch.Videos))]` and
  `ldb.c[c] = ch`. -/
def addModel (notifyOk : Video → Bool) (flag : Bool) (st : Store)
    (name : String) (ch : Channel) : AddResult :=
  if ch.videos.isEmpty then
    { store := st, flag := flag, notified := [], err := some "channel with no videos" }
  else
    let key := normalizeName name
    match lookup st key with
    | some ex =>
      match ex.videos with
      | latest :: _ =>
        let idx? := firstMatchIdx latest.videoId ch.videos
        let nf := mergeNotifications notifyOk flag idx? ch.videos
        { store := insert st key
            { ex with videos :=
                ch.videos.take (idx?.getD 0)
                  ++ ex.videos.take (min maxFeedSize ex.videos.length) },
          flag := nf.2, notified := nf.1, err := none }
      | [] =>
        { store := insert st key
            { ch with videos := ch.videos.take (min maxFeedSize ch.videos.length) },
          flag := flag, notified := [], err := none }
    | none =>
      { store := insert st key
          { ch with videos := ch.videos.take (min maxFeedSize ch.videos.length) },
        flag := flag, notified := [], err := none }

/-- Embeds `(*localDb).get`: normalize the name and look it up; `none` stands
for the `fmt.Errorf("not subscribed to channel '%v'", c)` failure. -/
def getModel (st : Store) (name : String) : Option Channel :=
  lookup st (normalizeName name)

/-- The loop in `send` computing the advisory power field:
`pow := 1; for res := 2; res < len(resp); res *= 2 { pow++ }`.
The loop doubles `res` starting from 2, so it runs fewer than `len` iterations;
`fuel = len` is enough for the recursion to reach the exit condition on every
input the Go code can produce. -/
def powLoop : Nat → Nat → Nat → Nat → Nat
  | 0, _, pow, _ => pow
  | fuel + 1, res, pow, len => if res < len then powLoop fuel (res * 2) (pow + 1) len else pow

/-- The power value `send` computes for a payload of `len` bytes. -/
def sendPow (len : Nat) : Nat := powLoop len 2 1 len

/-- Embeds the message construction of `send` (bytes as `Nat`):
`msg = [byte(st), byte(pow/10), byte(pow%10)] ++ []byte(resp)`.
The status `st` is the `state` enum: 0 = `failure`, 1 = `success`. -/
def sendMsg (st : Nat) (resp : List Nat) : List Nat :=
  st :: (sendPow resp.length / 10) :: (sendPow resp.length % 10) :: resp

/-- The `state` constant `failure` (iota 0). -/
def failureByte : Nat := 0

/-- The `state` constant `success` (iota 1). -/
def successByte : Nat := 1

/-- Outcome of `listenersChan.add`: either the process exits (carrying the
listener closed by `l.Close()`, what `lc.close()` managed to close before the
exit — `none` if that call never returns — and the exit status), or the
listener is appended to the channel's queue. -/
inductive RegisterResult (L : Type) where
  | exited (closedNew : L) (closedPool : Option (List L)) (exitCode : Nat)
  | appended (pool : List L)
deriving DecidableEq, Repr

/-- `n` successive receives `l := <-lc` from a buffered channel whose queue is
`pool`, closing (collecting) each received listener.  A receive from an empty
queue with no sender blocks forever: `none`. -/
def drainN {L : Type} : Nat → List L → List L → Option (List L)
  | 0, _, acc => some acc
  | _ + 1, [], _ => none
  | n + 1, a :: rest, acc => drainN n rest (acc ++ [a])

/-- Embeds `listenersChan.close`: `if len(lc) == 0 { return }`, then exactly
`listenersSize` (8) receives, each followed by `l.Close()`.  Returns the
listeners closed, in order, or `none` when a receive blocks forever (queue
exhausted before 8 receives). -/
def listenersClose {L : Type} (pool : List L) : Option (List L) :=
  if pool.length = 0 then some [] else drainN listenersSize pool []

/-- Embeds `listenersChan.add`: `if len(lc)+1 > listenersSize` close the new
listener, run `lc.close()`, `os.Exit(1)`; otherwise `lc <- l` enqueues. -/
def listenersAdd {L : Type} (pool : List L) (l : L) : RegisterResult L :=
  if pool.length + 1 > listenersSize then .exited l (listenersClose pool) 1
  else .appended (pool ++ [l])

/-- Go `fmt.Sprintf("%q", s)` for the plain channel names used here: the
string wrapped in double quotes.  (`%q` additionally escapes special
characters; none of the names in the proved statements contain any.) -/
def goQuote (s : String) : String := "\"" ++ s ++ "\""

/-- Result of one `handleAdd` connection: the response status byte and payload
handed to `send`, the store and notify flag afterwards, and whether the two
external collaborators (`getChannelURL`, `fetch`) were invoked. -/
structure HandleAddResult where
  status : Nat
  payload : String
  store : Store
  flag : Bool
  resolverCalled : Bool
  fetcherCalled : Bool
deriving DecidableEq, Repr

/-- Embeds the per-connection body of `handleAdd` after the request name has
been read.  `resolve` stands for `getChannelURL` (name → feed URL or error),
`fetchFeed` for `fetch` (name and URL → channel or error); both are abstract
collaborators whose outcomes are parameters.

Source order: `feed.get(name)`; on `err == nil` respond
`failure, "already subscribed to channel %q"` and return (no resolver, no
fetcher, no store change); else `getChannelURL`, `fetch`, `feed.add`, each
error sent as a failure response; on success respond
`success, "subscribed to channel %q"`. -/
def handleAddConn (resolve : String → Except String String)
    (fetchFeed : String → String → Except String Channel)
    (notifyOk : Video → Bool) (flag : Bool) (st : Store) (name : String) :
    HandleAddResult :=
  match getModel st name with
  | some _ =>
      { status := failureByte, payload := "already subscribed to channel " ++ goQuote name,
        store := st, flag := flag, resolverCalled := false, fetcherCalled := false }
  | none =>
    match resolve name with
    | .error e =>
        { status := failureByte, payload := e, store := st, flag := flag,
          resolverCalled := true, fetcherCalled := false }
    | .ok url =>
      match fetchFeed name url with
      | .error e =>
          { status := failureByte, payload := e, store := st, flag := flag,
            resolverCalled := true, fetcherCalled := true }
      | .ok ch =>
        let r := addModel notifyOk flag st name ch
        match r.err with
        | some e =>
            { status := failureByte, payload := e, store := r.store, flag := r.flag,
              resolverCalled := true, fetcherCalled := true }
        | none =>
            { status := successByte, payload := "subscribed to channel " ++ goQuote name,
              store := r.store, flag := r.flag, resolverCalled := true, fetcherCalled := true }

/-- Normalization following the words of the specification's claim instead of
the source: lower-cased and ALL whitespace removed (the source's
`normalizeName` removes only the space character).  Used to compare the spec's
wording with the code. -/
def specNormalizeAllWhitespace (s : String) : String :=
  ⟨(s.data.map Char.toLower).filter (fun ch => ¬ ch.isWhitespace)⟩

/-! ### Concrete fixtures used in witnesses and counterexamples -/

/-- A test video whose title and id are the same string. -/
def vid (s : String) : Video := { title := s, videoId := s, description := "" }

/-- A notifier for which every `dunstify` invocation succeeds. -/
def okNotifier : Video → Bool := fun _ => true

/-- A notifier for which exactly the invocation for the video with id "n1"
fails. -/
def failN1Notifier : Video → Bool := fun v => v.videoId != "n1"

/-- Existing record of the spec's overlap example: Items `[v3, v2, v1]`. -/
def exOverlap : Channel := { name := "C", url := "u", videos := [vid "v3", vid "v2", vid "v1"] }

/-- A store holding the overlap example's record under key "c". -/
def stOverlap : Store := [("c", exOverlap)]

/-- Incoming list of the spec's overlap example: `[v5, v4, v3, v2, v1]`. -/
def chOverlap : Channel :=
  { name := "C", url := "u", videos := [vid "v5", vid "v4", vid "v3", vid "v2", vid "v1"] }

/-- Incoming list sharing no id with `exOverlap`'s latest item `v3`. -/
def chNoOverlap : Channel := { name := "C", url := "u", videos := [vid "z2", vid "z1"] }

/-- Incoming list `[n2, n1, v3]`: two new items ahead of `exOverlap`'s latest. -/
def chNotify : Channel := { name := "C", url := "u", videos := [vid "n2", vid "n1", vid "v3"] }

/-- An incoming channel with exactly 7 items. -/
def chSeven : Channel :=
  { name := "C", url := "u", videos := ["x1", "x2", "x3", "x4", "x5", "x6", "x7"].map vid }

/-- An incoming channel whose third item matches `chSeven`'s newest item. -/
def chGrow : Channel := { name := "C", url := "u", videos := ["y1", "y2", "x1"].map vid }

/-- An incoming channel with a single item. -/
def chSingle : Channel := { name := "W", url := "u", videos := [vid "w1"] }

/-- An incoming channel with no items. -/
def chEmpty : Channel := { name := "E", url := "u", videos := [] }

/-- The channel added under the tab-containing name in the C7 counterexample. -/
def chTab : Channel := { name := "a\tb", url := "u", videos := [vid "w1"] }

/-- A resolver collaborator that always succeeds. -/
def dummyResolve : String → Except String String := fun _ => .ok "url"

/-- A fetcher collaborator that always returns `chSingle`. -/
def dummyFetch : String → String → Except String Channel := fun _ _ => .ok chSingle

/-! ### Helper lemmas about the store -/

theorem lookup_insert_self (st : Store) (k : String) (c : Channel) :
    lookup (insert st k c) k = some c := by
  induction st with
  | nil => simp [insert, lookup]
  | cons p rest ih =>
    obtain ⟨k', v⟩ := p
    by_cases h : k' = k <;> simp [insert, lookup, h, ih]

theorem insert_of_lookup_eq (st : Store) (k : String) (c : Channel)
    (h : lookup st k = some c) : insert st k c = st := by
  induction st with
  | nil => simp [lookup] at h
  | cons p rest ih =>
    obtain ⟨k', v⟩ := p
    by_cases hk : k' = k
    · subst hk
      simp [lookup] at h
      simp [insert, h]
    · simp [lookup, hk] at h
      simp [insert, hk, ih h]

/-! ### Helper lemmas about the merge scan -/

theorem firstMatchIdx_some_spec (ident : String) (l : List Video) (i : Nat)
    (h : firstMatchIdx ident l = some i) :
    (∃ v, l.get? i = some v ∧ v.videoId = ident) ∧
      ∀ j, j < i → ∀ v, l.get? j = some v → v.videoId ≠ ident := by
  induction l generalizing i with
  | nil => simp [firstMatchIdx] at h
  | cons a tl ih =>
    by_cases ha : a.videoId = ident
    · simp [firstMatchIdx, ha] at h
      subst h
      exact ⟨⟨a, by simp, ha⟩, by omega⟩
    · simp [firstMatchIdx, ha, Option.map_eq_some'] at h
      obtain ⟨i', hi', rfl⟩ := h
      refine ⟨?_, ?_⟩
      · obtain ⟨v, hv, hvid⟩ := (ih i' hi').1
        exact ⟨v, by simpa using hv, hvid⟩
      · intro j hj v hv
        cases j with
        | zero =>
          simp at hv
          subst hv
          exact ha
        | succ j' =>
          exact (ih i' hi').2 j' (by omega) v (by simpa using hv)

theorem firstMatchIdx_eq_none (ident : String) (l : List Video)
    (h : ∀ v ∈ l, v.videoId ≠ ident) : firstMatchIdx ident l = none := by
  induction l with
  | nil => simp [firstMatchIdx]
  | cons a tl ih =>
    have ha : a.videoId ≠ ident := h a (by simp)
    simp [firstMatchIdx, ha]
    exact ih (fun v hv => h v (by simp [hv]))

/-! ### Helper lemmas about the notification loop -/

theorem notifyRun_eq (ok : Video → Bool) (l : List Video) :
    notifyRun ok l =
      (l.takeWhile ok ++ (l.dropWhile ok).take 1, (l.dropWhile ok).isEmpty) := by
  induction l with
  | nil => simp [notifyRun]
  | cons v vs ih =>
    by_cases h : ok v <;> simp [notifyRun, h, ih, List.takeWhile_cons, List.dropWhile_cons]

theorem mergeNotifications_flag_false (ok : Video → Bool) (idx? : Option Nat)
    (incoming : List Video) :
    mergeNotifications ok false idx? incoming = ([], false) := by
  cases idx? <;> simp [mergeNotifications]

theorem addModel_flag_false (notifyOk : Video → Bool) (st : Store)
    (name : String) (ch : Channel) :
    (addModel notifyOk false st name ch).notified = [] ∧
      (addModel notifyOk false st name ch).flag = false := by
  by_cases he : ch.videos.isEmpty
  · simp [addModel, he]
  · cases hlk : lookup st (normalizeName name) with
    | none => simp [addModel, he, hlk]
    | some ex =>
      cases hv : ex.videos with
      | nil => simp [addModel, he, hlk, hv]
      | cons a l => simp [addModel, he, hlk, hv, mergeNotifications_flag_false]

/-! ### Helper lemma about the listener registry -/

theorem drainN_of_length_eq {L : Type} (pool : List L) :
    ∀ (n : Nat) (acc : List L), pool.length = n → drainN n pool acc = some (acc ++ pool) := by
  induction pool with
  | nil =>
    intro n acc h
    subst h
    simp [drainN]
  | cons a rest ih =>
    intro n acc h
    subst h
    simp only [List.length_cons, drainN]
    rw [ih rest.length (acc ++ [a]) rfl]
    simp

/-! ### The merge branch of `add` as one equation -/

theorem addModel_merge_eq (notifyOk : Video → Bool) (flag : Bool) (st : Store)
    (name : String) (ch ex : Channel) (latest : Video) (rest : List Video)
    (hlook : lookup st (normalizeName name) = some ex)
    (hex : ex.videos = latest :: rest)
    (hne : ch.videos ≠ []) :
    addModel notifyOk flag st name ch =
      { store := insert st (normalizeName name)
          { ex with videos :=
              ch.videos.take ((firstMatchIdx latest.videoId ch.videos).getD 0)
                ++ ex.videos.take (min maxFeedSize ex.videos.length) },
        flag := (mergeNotifications notifyOk flag (firstMatchIdx latest.videoId ch.videos) ch.videos).2,
        notified := (mergeNotifications notifyOk flag (firstMatchIdx latest.videoId ch.videos) ch.videos).1,
        err := none } := by
  have hemp : ch.videos.isEmpty = false := by
    cases hv : ch.videos with
    | nil => exact absurd hv hne
    | cons a l => simp
  simp [addModel, hemp, hlook, hex]

/-! ### Claim theorems -/

/-- Claim C3: `add` with an empty incoming item list fails with the EmptyFeed
error (`"channel with no videos"`), the store is unchanged, and a subsequent
`get` for any key returns what it returned before the failed `add`. -/
theorem add_empty_feed_fails (notifyOk : Video → Bool) (flag : Bool) (st : Store)
    (name : String) (ch : Channel) (hch : ch.videos = []) :
    (addModel notifyOk flag st name ch).err = some "channel with no videos" ∧
      (addModel notifyOk flag st name ch).store = st ∧
      ∀ k, getModel (addModel notifyOk flag st name ch).store k = getModel st k := by
  simp [addModel, hch]

/-- Witness for C3 at a concrete empty channel. -/
theorem add_empty_feed_fails_witness :
    chEmpty.videos = [] ∧
    (addModel okNotifier true [] "c" chEmpty).err = some "channel with no videos" ∧
    (addModel okNotifier true [] "c" chEmpty).store = [] :=
  ⟨rfl, (add_empty_feed_fails okNotifier true [] "c" chEmpty rfl).1,
    (add_empty_feed_fails okNotifier true [] "c" chEmpty rfl).2.1⟩

/-- Claim C5: the encoded response of `send` has total length `3 + len(payload)`,
its byte 0 is the status, and its bytes from index 3 onward are the payload,
whatever the two power bytes hold; in particular encoding (success, "hello")
yields `[1, 0, 3] ++ "hello"` of total length 8, which decodes back to
status = success and payload = "hello". -/
theorem send_roundtrip (st : Nat) (resp : List Nat) :
    (sendMsg st resp).length = 3 + resp.length ∧
      (sendMsg st resp).get? 0 = some st ∧
      (sendMsg st resp).drop 3 = resp ∧
      sendMsg successByte [104, 101, 108, 108, 111] =
        [1, 0, 3, 104, 101, 108, 108, 111] := by
  refine ⟨?_, rfl, rfl, rfl⟩
  simp [sendMsg]
  omega

/-- Claim C9 (code bug): `listenersChan.close` is a no-op on an empty registry
and closes each of the 8 registered listeners exactly once on a full one, but
on a registry holding 1 listener (any count strictly between 0 and 8) it
always performs 8 channel receives and therefore blocks forever instead of
returning (`none` in the model). -/
theorem listeners_close_partial_pool :
    listenersClose ([] : List Nat) = some [] ∧
    listenersClose ([0, 1, 2, 3, 4, 5, 6, 7] : List Nat) = some [0, 1, 2, 3, 4, 5, 6, 7] ∧
    listenersClose ([0] : List Nat) = none := ⟨rfl, rfl, rfl⟩

/-- Claim C10: a request to the `add` endpoint whose (normalized) name is
already in the store gets a failure response saying the channel is already
subscribed, and the handler returns without calling the resolver
(`getChannelURL`) or the fetcher (`fetch`) and without modifying the store. -/
theorem handle_add_already_subscribed
    (resolve : String → Except String String)
    (fetchFeed : String → String → Except String Channel)
    (notifyOk : Video → Bool) (flag : Bool) (st : Store) (name : String) (c : Channel)
    (hpresent : getModel st name = some c) :
    handleAddConn resolve fetchFeed notifyOk flag st name =
      { status := failureByte,
        payload := "already subscribed to channel " ++ goQuote name,
        store := st, flag := flag, resolverCalled := false, fetcherCalled := false } := by
  simp [handleAddConn, hpresent]

/-- Witness for C10 at a concrete populated store. -/
theorem handle_add_already_subscribed_witness :
    getModel stOverlap "c" = some exOverlap ∧
    handleAddConn dummyResolve dummyFetch okNotifier true stOverlap "c" =
      { status := failureByte, payload := "already subscribed to channel " ++ goQuote "c",
        store := stOverlap, flag := true, resolverCalled := false, fetcherCalled := false } :=
  ⟨by decide,
    handle_add_already_subscribed dummyResolve dummyFetch okNotifier true stOverlap "c"
      exOverlap (by decide)⟩

/-- Claim C1: on a repeat `add` whose incoming list contains the existing
record's latest id, `i` is the least index of an incoming item with that id,
and the record's Items become `incoming.Items[0:i] ++ existing.Items[0:min(7, len(existing.Items))]`. -/
theorem add_merge_overlap
    (notifyOk : Video → Bool) (flag : Bool) (st : Store) (name : String)
    (ch ex : Channel) (latest : Video) (rest : List Video) (i : Nat)
    (hlook : lookup st (normalizeName name) = some ex)
    (hex : ex.videos = latest :: rest)
    (hne : ch.videos ≠ [])
    (hidx : firstMatchIdx latest.videoId ch.videos = some i) :
    (addModel notifyOk flag st name ch).err = none ∧
    (addModel notifyOk flag st name ch).store =
      insert st (normalizeName name)
        { ex with videos :=
            ch.videos.take i ++ ex.videos.take (min maxFeedSize ex.videos.length) } ∧
    (∃ v, ch.videos.get? i = some v ∧ v.videoId = latest.videoId) ∧
    (∀ j, j < i → ∀ v, ch.videos.get? j = some v → v.videoId ≠ latest.videoId) := by
  have heq := addModel_merge_eq notifyOk flag st name ch ex latest rest hlook hex hne
  have hspec := firstMatchIdx_some_spec latest.videoId ch.videos i hidx
  refine ⟨by rw [heq], ?_, hspec.1, hspec.2⟩
  rw [heq]
  simp [hidx]

/-- Witness for C1 at the spec's overlap example: existing `[v3, v2, v1]`,
incoming `[v5, v4, v3, v2, v1]`, so `i = 2` and the merged Items are
`[v5, v4, v3, v2, v1]`. -/
theorem add_merge_overlap_witness :
    lookup stOverlap (normalizeName "c") = some exOverlap ∧
    exOverlap.videos = vid "v3" :: [vid "v2", vid "v1"] ∧
    chOverlap.videos ≠ [] ∧
    firstMatchIdx (vid "v3").videoId chOverlap.videos = some 2 ∧
    (addModel okNotifier false stOverlap "c" chOverlap).err = none ∧
    (addModel okNotifier false stOverlap "c" chOverlap).store =
      [("c", { name := "C", url := "u",
               videos := [vid "v5", vid "v4", vid "v3", vid "v2", vid "v1"] })] :=
  ⟨by decide, by decide, by decide, by decide,
    (add_merge_overlap okNotifier false stOverlap "c" chOverlap exOverlap (vid "v3")
      [vid "v2", vid "v1"] 2 (by decide) (by decide) (by decide) (by decide)).1,
    by decide⟩

/-- Claim C4: on a repeat `add` where no incoming item matches the existing
latest id (existing Items non-empty with at most 7 entries, incoming
non-empty), `add` succeeds with `i = 0`, issues no notifications, and leaves
the store — in particular the existing Items — unchanged. -/
theorem add_merge_no_overlap
    (notifyOk : Video → Bool) (flag : Bool) (st : Store) (name : String)
    (ch ex : Channel) (latest : Video) (rest : List Video)
    (hlook : lookup st (normalizeName name) = some ex)
    (hex : ex.videos = latest :: rest)
    (hlen : ex.videos.length ≤ maxFeedSize)
    (hne : ch.videos ≠ [])
    (hnomatch : ∀ v ∈ ch.videos, v.videoId ≠ latest.videoId) :
    addModel notifyOk flag st name ch =
      { store := st, flag := flag, notified := [], err := none } := by
  have heq := addModel_merge_eq notifyOk flag st name ch ex latest rest hlook hex hne
  have hidx : firstMatchIdx latest.videoId ch.videos = none :=
    firstMatchIdx_eq_none latest.videoId ch.videos hnomatch
  have hmin : min maxFeedSize ex.videos.length = ex.videos.length := by omega
  have heta : ({ ex with videos := ex.videos } : Channel) = ex := rfl
  rw [heq, hidx]
  simp [mergeNotifications, hmin, List.take_length, heta,
    insert_of_lookup_eq st (normalizeName name) ex hlook]

/-- Witness for C4: existing `[v3, v2, v1]`, incoming `[z2, z1]` with no
matching id; the store, flag and notification list are untouched. -/
theorem add_merge_no_overlap_witness :
    lookup stOverlap (normalizeName "c") = some exOverlap ∧
    exOverlap.videos.length ≤ maxFeedSize ∧
    chNoOverlap.videos ≠ [] ∧
    (∀ v ∈ chNoOverlap.videos, v.videoId ≠ (vid "v3").videoId) ∧
    addModel okNotifier true stOverlap "c" chNoOverlap =
      { store := stOverlap, flag := true, notified := [], err := none } :=
  ⟨by decide, by decide, by decide, by decide,
    add_merge_no_overlap okNotifier true stOverlap "c" chNoOverlap exOverlap (vid "v3")
      [vid "v2", vid "v1"] (by decide) (by decide) (by decide) (by decide) (by decide)⟩

/-- Claim C6: registering a listener when 8 are already registered closes the
new listener, closes every already-registered listener, and exits the process
with status 1 (non-zero); registering below capacity appends the listener and
closes nothing. -/
theorem listener_pool_fail_fast {L : Type} (pool : List L) (l : L) :
    (pool.length = listenersSize →
       listenersAdd pool l = RegisterResult.exited l (some pool) 1 ∧ (1 : Nat) ≠ 0) ∧
    (pool.length + 1 ≤ listenersSize →
       listenersAdd pool l = RegisterResult.appended (pool ++ [l])) := by
  constructor
  · intro h
    have hclose : listenersClose pool = some pool := by
      have hd := drainN_of_length_eq pool listenersSize [] h
      simpa [listenersClose, h, listenersSize] using hd
    refine ⟨?_, by omega⟩
    simp [listenersAdd, hclose, h, listenersSize]
  · intro h
    have hle : ¬ (pool.length + 1 > listenersSize) := by omega
    simp [listenersAdd, hle]

/-- Witness for C6: a full pool of 8 listeners exits closing all of them; a
pool of 2 just appends. -/
theorem listener_pool_fail_fast_witness :
    ([0, 1, 2, 3, 4, 5, 6, 7] : List Nat).length = listenersSize ∧
    listenersAdd ([0, 1, 2, 3, 4, 5, 6, 7] : List Nat) 8 =
      RegisterResult.exited 8 (some [0, 1, 2, 3, 4, 5, 6, 7]) 1 ∧
    ([0, 1] : List Nat).length + 1 ≤ listenersSize ∧
    listenersAdd ([0, 1] : List Nat) 2 = RegisterResult.appended [0, 1, 2] :=
  ⟨by decide,
    ((listener_pool_fail_fast ([0, 1, 2, 3, 4, 5, 6, 7] : List Nat) 8).1 (by decide)).1,
    by decide,
    (listener_pool_fail_fast ([0, 1] : List Nat) 2).2 (by decide)⟩

/-- Claim C2 (amended): a record created by the insert path of `add` (key
absent) has at most 7 items, but the merge path does not re-truncate, so
repeated adds can grow a record beyond 7 (the counterexample reaches 9). -/
theorem cap_on_fresh_insert
    (notifyOk : Video → Bool) (flag : Bool) (st : Store) (name : String) (ch : Channel)
    (habs : lookup st (normalizeName name) = none)
    (hne : ch.videos ≠ []) :
    (addModel notifyOk flag st name ch).err = none ∧
    ∃ c2, lookup (addModel notifyOk flag st name ch).store (normalizeName name) = some c2 ∧
      c2.videos.length ≤ maxFeedSize := by
  have hemp : ch.videos.isEmpty = false := by
    cases hv : ch.videos with
    | nil => exact absurd hv hne
    | cons a l => simp
  refine ⟨by simp [addModel, hemp, habs], ?_⟩
  refine ⟨{ ch with videos := ch.videos.take (min maxFeedSize ch.videos.length) }, ?_, ?_⟩
  · simp [addModel, hemp, habs, lookup_insert_self]
  · simp [List.length_take]

/-- Witness for C2's amended insert-path cap at a concrete fresh add. -/
theorem cap_on_fresh_insert_witness :
    lookup ([] : Store) (normalizeName "c") = none ∧
    chSingle.videos ≠ [] ∧
    (addModel okNotifier true [] "c" chSingle).err = none :=
  ⟨by decide, by decide,
    (cap_on_fresh_insert okNotifier true [] "c" chSingle (by decide) (by decide)).1⟩

/-- Counterexample to C2 as stated: two successful adds (a fresh insert of 7
items, then a merge bringing 2 new items) leave the record with 9 items,
violating the claimed `length ≤ 7` invariant. -/
theorem cap_violation_after_two_adds :
    (addModel okNotifier false [] "c" chSeven).err = none ∧
    (addModel okNotifier false (addModel okNotifier false [] "c" chSeven).store "c" chGrow).err
      = none ∧
    (getModel (addModel okNotifier false
        (addModel okNotifier false [] "c" chSeven).store "c" chGrow).store "c").map
      (fun ch => ch.videos.length) = some 9 ∧
    ¬ (9 ≤ maxFeedSize) := by decide

/-- Claim C7 (amended): two names equal after lower-casing and removing every
space character U+0020 (the normalization the code actually performs) are
interchangeable between `add` and `get`: adding under one and getting under
the other returns the added record. -/
theorem key_normalization_spaces
    (notifyOk : Video → Bool) (flag : Bool) (st : Store) (n1 n2 : String) (ch : Channel)
    (hnorm : normalizeName n1 = normalizeName n2)
    (habs : lookup st (normalizeName n1) = none)
    (hne : ch.videos ≠ [])
    (hlen : ch.videos.length ≤ maxFeedSize) :
    getModel (addModel notifyOk flag st n1 ch).store n2 = some ch := by
  have hemp : ch.videos.isEmpty = false := by
    cases hv : ch.videos with
    | nil => exact absurd hv hne
    | cons a l => simp
  have hmin : min maxFeedSize ch.videos.length = ch.videos.length := by omega
  have htake : ch.videos.take (min maxFeedSize ch.videos.length) = ch.videos := by
    rw [hmin, List.take_length]
  have heta : ({ ch with videos := ch.videos } : Channel) = ch := rfl
  simp [addModel, hemp, habs, getModel, ← hnorm, htake, heta, lookup_insert_self]

/-- Witness for C7's amended claim: "A b" and "ab" differ only by case and a
space; a record added under "A b" is returned by `get "ab"`. -/
theorem key_normalization_spaces_witness :
    normalizeName "A b" = normalizeName "ab" ∧
    lookup ([] : Store) (normalizeName "A b") = none ∧
    chSingle.videos ≠ [] ∧
    chSingle.videos.length ≤ maxFeedSize ∧
    getModel (addModel okNotifier true [] "A b" chSingle).store "ab" = some chSingle :=
  ⟨by decide, by decide, by decide, by decide,
    key_normalization_spaces okNotifier true [] "A b" "ab" chSingle
      (by decide) (by decide) (by decide) (by decide)⟩

/-- Counterexample to C7 as stated: "a\tb" and "ab" are equal after
lower-casing and removing all whitespace (the claim's premise), yet after a
successful `add` under "a\tb", `get "ab"` finds nothing — the code removes
only the space character, so the tab stays in the key. -/
theorem key_normalization_counterexample :
    specNormalizeAllWhitespace "a\tb" = specNormalizeAllWhitespace "ab" ∧
    (addModel okNotifier true [] "a\tb" chTab).err = none ∧
    getModel (addModel okNotifier true [] "a\tb" chTab).store "ab" = none := by decide

/-- Claim C8: during a merge with `i` new items and notifications enabled,
`notify` is invoked in increasing index order on `incoming.Items[0..i)`
stopping right after the first failure, a failure leaves the global notify
flag false (and while the flag is false no `add` ever notifies or re-enables
it), and the merge itself still succeeds. -/
theorem notifier_degradation
    (notifyOk : Video → Bool) (st : Store) (name : String)
    (ch ex : Channel) (latest : Video) (rest : List Video) (i : Nat)
    (hlook : lookup st (normalizeName name) = some ex)
    (hex : ex.videos = latest :: rest)
    (hne : ch.videos ≠ [])
    (hidx : firstMatchIdx latest.videoId ch.videos = some i)
    (hi : 0 < i) :
    (addModel notifyOk true st name ch).err = none ∧
    (addModel notifyOk true st name ch).notified =
      (ch.videos.take i).takeWhile notifyOk ++ ((ch.videos.take i).dropWhile notifyOk).take 1 ∧
    (addModel notifyOk true st name ch).flag =
      ((ch.videos.take i).dropWhile notifyOk).isEmpty ∧
    (∀ (ok2 : Video → Bool) (st2 : Store) (name2 : String) (ch2 : Channel),
       (addModel ok2 false st2 name2 ch2).notified = [] ∧
       (addModel ok2 false st2 name2 ch2).flag = false) := by
  have heq := addModel_merge_eq notifyOk true st name ch ex latest rest hlook hex hne
  refine ⟨by rw [heq], ?_, ?_, fun ok2 st2 name2 ch2 => addModel_flag_false ok2 st2 name2 ch2⟩
  · rw [heq]
    simp [mergeNotifications, hidx, hi, notifyRun_eq]
  · rw [heq]
    simp [mergeNotifications, hidx, hi, notifyRun_eq]

/-- Witness for C8: existing latest `v3`, incoming `[n2, n1, v3]` (`i = 2`),
notifier failing on `n1`: both new items are passed to `notify` in order, the
sequence stops at the failing `n1`, the flag ends up false, and the merge
succeeds. -/
theorem notifier_degradation_witness :
    lookup stOverlap (normalizeName "c") = some exOverlap ∧
    firstMatchIdx (vid "v3").videoId chNotify.videos = some 2 ∧
    (addModel failN1Notifier true stOverlap "c" chNotify).err = none ∧
    (addModel failN1Notifier true stOverlap "c" chNotify).notified = [vid "n2", vid "n1"] ∧
    (addModel failN1Notifier true stOverlap "c" chNotify).flag = false := by
  have h := notifier_degradation failN1Notifier stOverlap "c" chNotify exOverlap (vid "v3")
    [vid "v2", vid "v1"] 2 (by decide) (by decide) (by decide) (by decide) (by decide)
  exact ⟨by decide, by decide, h.1, by decide, by decide⟩

end Ytfd
